import Mathlib

/-!
Verification of the MagpylibGui utilities (`src/magpylibutils.py`).

Shallow-embedding conventions used throughout this file:

* numpy float arrays are modelled exactly, with coordinates and tabulated
  field data as rationals (`ℚ`) on the pure-arithmetic data plane of the
  code, and reals (`ℝ`) wherever trigonometry enters (rotations);
* 3-vectors are triples, batches of points are lists (the `reshape(-1,3)` /
  `reshape(shape)` bookkeeping collapses to working with the flattened list);
* emitted warnings are returned alongside results; a Python `raise` or a
  failed `assert` becomes `Except.error`;
* the in-place mutation performed by `DiscreteSourceBox.getB` on its `pos`
  argument is made explicit: `getB` returns the mutated array together with
  the field values, and `getBarray` threads the shared array through the
  per-source calls.

The magpylib collaborators (`RCS`, `angleAxisRotation`, `angleAxisRotationV`,
quaternion helpers) and scipy's `RegularGridInterpolator` are not part of
`src/`; they are modelled from the spec's description of these collaborators
(see the individual doc comments).
-/

open Real

/-- World 3-vectors over `ℝ` (the rotation/value plane of the code). -/
abbrev V3 : Type := ℝ × ℝ × ℝ

/-- Data-plane 3-vectors over `ℚ` (positions and tabulated field data). -/
abbrev Vq : Type := ℚ × ℚ × ℚ

/-- Cast a rational vector into the real plane. -/
def castV (v : Vq) : V3 := ((v.1 : ℝ), (v.2.1 : ℝ), (v.2.2 : ℝ))

/-- `np.deg2rad`. -/
noncomputable def deg2rad (x : ℝ) : ℝ := x * π / 180

/-- Euclidean norm of a 3-vector (`fastNorm3D` of the magpylib collaborator). -/
noncomputable def norm3 (v : V3) : ℝ := Real.sqrt (v.1 ^ 2 + v.2.1 ^ 2 + v.2.2 ^ 2)

/-- Normalization of a 3-vector (with Lean's `x / 0 = 0` junk value on `0`). -/
noncomputable def normalize3 (v : V3) : V3 :=
  (v.1 / norm3 v, v.2.1 / norm3 v, v.2.2 / norm3 v)

/-- Modelled from the spec: the quaternions used by the magpylib math
collaborator (`Qmult`, `Qconj`, `getRotQuat`, not under `src/`) — an explicit
4-component structure with the Hamilton product. -/
structure Quat where
  re : ℝ
  imI : ℝ
  imJ : ℝ
  imK : ℝ

/-- Hamilton product (`Qmult`). -/
def qmul (a b : Quat) : Quat :=
  ⟨a.re * b.re - a.imI * b.imI - a.imJ * b.imJ - a.imK * b.imK,
   a.re * b.imI + a.imI * b.re + a.imJ * b.imK - a.imK * b.imJ,
   a.re * b.imJ - a.imI * b.imK + a.imJ * b.re + a.imK * b.imI,
   a.re * b.imK + a.imI * b.imJ - a.imJ * b.imI + a.imK * b.re⟩

/-- Quaternion conjugation (`Qconj`). -/
def qconj (a : Quat) : Quat := ⟨a.re, -a.imI, -a.imJ, -a.imK⟩

/-- Squared quaternion norm. -/
def qnormSq (a : Quat) : ℝ := a.re ^ 2 + a.imI ^ 2 + a.imJ ^ 2 + a.imK ^ 2

/-- The identity quaternion. -/
def qone : Quat := ⟨1, 0, 0, 0⟩

/-- A 3-vector as a pure quaternion. -/
def pureQ (v : V3) : Quat := ⟨0, v.1, v.2.1, v.2.2⟩

/-- Modelled from the spec: magpylib `getRotQuat(angle, axis)` — the unit
quaternion of a rotation by `angle` degrees about (the normalization of)
`axis`; the half angle in radians is `angle * π / 360`. -/
noncomputable def getRotQuat (angle : ℝ) (axis : V3) : Quat :=
  ⟨Real.cos (angle * π / 360),
   Real.sin (angle * π / 360) * (normalize3 axis).1,
   Real.sin (angle * π / 360) * (normalize3 axis).2.1,
   Real.sin (angle * π / 360) * (normalize3 axis).2.2⟩

/-- Modelled from the spec: magpylib `angleAxisRotation(v, angle, axis)` —
rotate the vector `v` by `angle` degrees about `axis`, through quaternion
conjugation `q * (0, v) * q⋆`. -/
noncomputable def angleAxisRotation (v : V3) (angle : ℝ) (axis : V3) : V3 :=
  let q := getRotQuat angle axis
  let r := qmul q (qmul (pureQ v) (qconj q))
  (r.imI, r.imJ, r.imK)

/-- Modelled from the spec: one entry of magpylib `angleAxisRotationV` —
rotate the point/vector `v` by `angle` degrees about `axis`, anchored at
`anchor`. -/
noncomputable def angleAxisRotationAnch (v : V3) (angle : ℝ) (axis : V3) (anchor : V3) : V3 :=
  anchor + angleAxisRotation (v - anchor) angle axis

/-!  ## Membership model for `SensorCollection.addSensor` / `__add__`

Python compares magpylib sensors with default object identity (`in`,
`not in`, no `__eq__` overrides), so every object is tagged with a numeric
id and equality compares the tag.  `pyList` is a raw Python list object —
`SensorCollection.__add__` passes one as a single constructor argument. -/

inductive SItem where
  | sensor (id : ℕ)
  | surface (id : ℕ)
  | coll (id : ℕ) (children : List SItem)
  | pyList (id : ℕ) (items : List SItem)
  | other (id : ℕ)

/-- Python `==` on these objects: object identity, i.e. tag equality. -/
def eqItem : SItem → SItem → Bool
  | SItem.sensor i, SItem.sensor j => i == j
  | SItem.surface i, SItem.surface j => i == j
  | SItem.coll i _, SItem.coll j _ => i == j
  | SItem.pyList i _, SItem.pyList j _ => i == j
  | SItem.other i, SItem.other j => i == j
  | _, _ => false

/-- Python `s in L`. -/
def isIn (s : SItem) (L : List SItem) : Bool := L.any (eqItem s)

mutual

/-- One loop iteration of `SensorCollection.addSensor`: a `Sensor` or
`SurfaceSensor` not already present is appended; a `SensorCollection` is
recursively absorbed; anything else falls through the `if`/`elif` with no
`else` and is silently ignored. -/
def addOne (L : List SItem) : SItem → List SItem
  | SItem.sensor i => if isIn (SItem.sensor i) L then L else L ++ [SItem.sensor i]
  | SItem.surface i => if isIn (SItem.surface i) L then L else L ++ [SItem.surface i]
  | SItem.coll _ cs => addSensor L cs
  | SItem.pyList _ _ => L
  | SItem.other _ => L

/-- `SensorCollection.addSensor(*sensors)`: fold `addOne` over the
arguments, left to right. -/
def addSensor (L : List SItem) : List SItem → List SItem
  | [] => L
  | s :: rest => addSensor (addOne L s) rest

end

/-- `SensorCollection.addSensor` in an error-signalling monad: a Python
`raise`/failed `assert` would be `Except.error`, but no branch of the method
body can raise — invalid items fall through the `if`/`elif` with no `else` —
so the monadic embedding is `Except.ok` of the pure result on every input. -/
def addSensorE (L : List SItem) (args : List SItem) : Except String (List SItem) :=
  Except.ok (addSensor L args)

/-- Python `str(x)` for the membership model. -/
def itemStr : SItem → String
  | SItem.sensor i => "Sensor " ++ toString i
  | SItem.surface i => "SurfaceSensor " ++ toString i
  | SItem.coll i _ => "SensorCollection " ++ toString i
  | SItem.pyList i _ => "list " ++ toString i
  | SItem.other i => "object " ++ toString i

/-- `SensorCollection.__init__(*sensors)`: start from an empty child list
and `addSensor` every argument. -/
def initCollection (args : List SItem) : List SItem := addSensor [] args

/-- `SensorCollection.__add__(self, other)`: `assert isinstance(other,
(SensorCollection, Sensor))` with message `str(other) + ' item must be a
SensorCollection or a sensor'` (note a `SurfaceSensor` is *neither*, it
subclasses `RCS`), then build `SensorCollection(self.sensors + sens)` —
passing the combined Python *list* as a single constructor argument
(`freshId` tags that new list object). -/
def addOperator (L : List SItem) (other : SItem) (freshId : ℕ) : Except String (List SItem) :=
  match other with
  | SItem.sensor i => Except.ok (initCollection [SItem.pyList freshId (L ++ [SItem.sensor i])])
  | SItem.coll _ cs => Except.ok (initCollection [SItem.pyList freshId (L ++ cs)])
  | s => Except.error (itemStr s ++ " item must be a SensorCollection or a sensor")

/-!  ## Discrete source box -/

/-- One row of the 6-column `(x, y, z, Bx, By, Bz)` input table. -/
structure Row where
  x : ℚ
  y : ℚ
  z : ℚ
  Bx : ℚ
  By : ℚ
  Bz : ℚ

/-- Lexicographic `(x, y, z)` row order, as used by
`df.sort_values(['x','y','z'])`. -/
def rowLe (a b : Row) : Prop :=
  a.x < b.x ∨ (a.x = b.x ∧ (a.y < b.y ∨ (a.y = b.y ∧ a.z ≤ b.z)))

instance (a b : Row) : Decidable (rowLe a b) := by unfold rowLe; infer_instance

/-- Insert a row into an already sorted list (before the first element it
compares `≤` to, which keeps the sort stable like pandas). -/
def insRow (r : Row) : List Row → List Row
  | [] => [r]
  | s :: rest => if rowLe r s then r :: s :: rest else s :: insRow r rest

/-- Stable sort of the table by `(x, y, z)` (`df.sort_values(['x','y','z'])`). -/
def sortRows : List Row → List Row
  | [] => []
  | r :: rest => insRow r (sortRows rest)

/-- Column minimum (`np.min(df.values, axis=0)` on one column). -/
def listMin : List ℚ → ℚ
  | [] => 0
  | q :: qs => qs.foldl min q

/-- Column maximum. -/
def listMax : List ℚ → ℚ
  | [] => 0
  | q :: qs => qs.foldl max q

/-- `np.linspace(a, b, n)` over `ℚ` (endpoint included; `n = 1` gives `[a]`
exactly as numpy does, via Lean's `x / 0 = 0`). -/
def linspaceQ (a b : ℚ) (n : ℕ) : List ℚ :=
  (List.range n).map fun i : ℕ => a + (i : ℚ) * (b - a) / ((n : ℚ) - 1)

/-- Number of elements of `g` strictly below `t`
(`np.searchsorted(g, t, side='left')` for sorted `g`). -/
def countLt (t : ℚ) : List ℚ → ℕ
  | [] => 0
  | g :: rest => (if g < t then 1 else 0) + countLt t rest

/-- Modelled from the spec: scipy `RegularGridInterpolator`'s cell lookup —
`searchsorted(grid, t) - 1` clamped into `[0, len - 2]` (out-of-domain
points use the edge cell, giving linear extrapolation for
`fill_value=None`). -/
def cellIdx (g : List ℚ) (t : ℚ) : ℕ :=
  min (countLt t g - 1) (g.length - 2)

/-- Fractional coordinate of `t` inside cell `i` of axis `g`. -/
def cellFrac (g : List ℚ) (i : ℕ) (t : ℚ) : ℚ :=
  (t - g.getD i 0) / (g.getD (i + 1) 0 - g.getD i 0)

/-- Lookup into a flattened value column reshaped to `(nx, ny, nz)`
row-major: entry `(i, j, k)` sits at flat index `(i*ny + j)*nz + k`. -/
def gridVal (flat : List ℚ) (ny nz i j k : ℕ) : ℚ :=
  flat.getD ((i * ny + j) * nz + k) 0

/-- Modelled from the spec: trilinear interpolation of one field component
on the rectilinear grid `(gx, gy, gz)` — scipy `RegularGridInterpolator`
with `bounds_error` falsy and `fill_value=None` (the defaults the code
passes), i.e. multilinear inside the domain and linearly extrapolated from
the edge cell outside. -/
def interp3 (gx gy gz : List ℚ) (flat : List ℚ) (ny nz : ℕ) (p : Vq) : ℚ :=
  let i := cellIdx gx p.1
  let j := cellIdx gy p.2.1
  let k := cellIdx gz p.2.2
  let tx := cellFrac gx i p.1
  let ty := cellFrac gy j p.2.1
  let tz := cellFrac gz k p.2.2
  (1 - tx) * ((1 - ty) * ((1 - tz) * gridVal flat ny nz i j k
                        + tz * gridVal flat ny nz i j (k + 1))
            + ty * ((1 - tz) * gridVal flat ny nz i (j + 1) k
                  + tz * gridVal flat ny nz i (j + 1) (k + 1)))
  + tx * ((1 - ty) * ((1 - tz) * gridVal flat ny nz (i + 1) j k
                    + tz * gridVal flat ny nz (i + 1) j (k + 1))
        + ty * ((1 - tz) * gridVal flat ny nz (i + 1) (j + 1) k
              + tz * gridVal flat ny nz (i + 1) (j + 1) (k + 1)))

/-- The state `DiscreteSourceBox.__init__` builds: the three interpolation
axes — `np.linspace(min, max, n_unique)` per spatial axis, *not* the unique
sorted coordinate values —, the flattened sorted field columns, the data
centroid `_center`, the bounding-box `dimension`, and the placement
(`position = _center + pos`, `angle`, `axis`). -/
structure DiscreteSourceBox where
  gx : List ℚ
  gy : List ℚ
  gz : List ℚ
  ny : ℕ
  nz : ℕ
  bxFlat : List ℚ
  byFlat : List ℚ
  bzFlat : List ℚ
  center : Vq
  dimension : Vq
  position : Vq
  angle : ℚ
  axis : Vq

/-- `DiscreteSourceBox.__init__(data, pos, angle, axis)` (with the default
`bounds_error=None`, `fill_value=None` interpolators baked into `interp3`). -/
def mkDiscreteSourceBox (data : List Row) (pos : Vq) (angle : ℚ) (axis : Vq) :
    DiscreteSourceBox :=
  let df := sortRows data
  let xs := df.map Row.x
  let ys := df.map Row.y
  let zs := df.map Row.z
  let center : Vq := ((listMax xs + listMin xs) / 2, (listMax ys + listMin ys) / 2,
    (listMax zs + listMin zs) / 2)
  { gx := linspaceQ (listMin xs) (listMax xs) xs.dedup.length
    gy := linspaceQ (listMin ys) (listMax ys) ys.dedup.length
    gz := linspaceQ (listMin zs) (listMax zs) zs.dedup.length
    ny := ys.dedup.length
    nz := zs.dedup.length
    bxFlat := df.map Row.Bx
    byFlat := df.map Row.By
    bzFlat := df.map Row.Bz
    center := center
    dimension := (listMax xs - listMin xs, listMax ys - listMin ys, listMax zs - listMin zs)
    position := center + pos
    angle := angle
    axis := axis }

/-- The in-place shift `getB` applies to its argument:
`self._center - self.position` (i.e. minus the construction `pos`). -/
def dsShift (b : DiscreteSourceBox) : Vq := b.center - b.position

/-- `self.interpFunc` on one (already shifted) point: the three
per-component interpolators stacked. -/
def interpFunc (b : DiscreteSourceBox) (p : Vq) : Vq :=
  (interp3 b.gx b.gy b.gz b.bxFlat b.ny b.nz p,
   interp3 b.gx b.gy b.gz b.byFlat b.ny b.nz p,
   interp3 b.gx b.gy b.gz b.bzFlat b.ny b.nz p)

/-- Field values at the (already mutated) query points: plain casts when
`self.angle == 0`, otherwise every value rotated by `(angle, axis)`
(`angleAxisRotation(b, self.angle, self.axis) for b in B`). -/
noncomputable def dsVals (b : DiscreteSourceBox) (pts : List Vq) : List V3 :=
  let ws := pts.map (interpFunc b)
  if b.angle ≠ 0 then ws.map fun w => angleAxisRotation (castV w) ((b.angle : ℝ)) (castV b.axis)
  else ws.map castV

/-- A numpy position argument: a bare 3-vector (shape `(3,)`) or a batch
(shape `(n, 3)`). -/
inductive PosArg where
  | single (v : Vq)
  | batch (l : List Vq)

/-- The possible shapes of `DiscreteSourceBox.getB`'s return value:
a bare vector or a batch. -/
inductive BRet where
  | single (v : V3)
  | batch (l : List V3)

/-- `none` for a bare vector, `some n` for an `(n, 3)` batch. -/
def BRet.shape : BRet → Option ℕ
  | BRet.single _ => none
  | BRet.batch l => some l.length

/-- The flattened list of points of a position argument. -/
def PosArg.flat : PosArg → List Vq
  | PosArg.single v => [v]
  | PosArg.batch l => l

/-- Shape-preserving elementwise map (numpy broadcasting of `pos += v`). -/
def PosArg.mapPts (f : Vq → Vq) : PosArg → PosArg
  | PosArg.single v => PosArg.single (f v)
  | PosArg.batch l => PosArg.batch (l.map f)

/-- `DiscreteSourceBox.getB(self, pos)`.  Returns the mutated `pos` array
(the in-place `pos += self._center - self.position`) together with the
field values: when `angle != 0` always a batch of rotated vectors; when
`angle == 0` the bare vector `B[0]` if the interpolated batch has exactly
one row, otherwise the batch. -/
noncomputable def DiscreteSourceBox.getB (b : DiscreteSourceBox) (pos : PosArg) :
    PosArg × BRet :=
  let pos' := pos.mapPts (· + dsShift b)
  let vals := dsVals b pos'.flat
  (pos',
   if b.angle ≠ 0 then BRet.batch vals
   else if pos'.flat.length = 1 then BRet.single (vals.headD (0, 0, 0))
   else BRet.batch vals)

/-!  ## Batched field aggregation (`getBarray`) -/

/-- A field source as consumed by `getBarray`: a `DiscreteSourceBox`, or any
other magpylib source (e.g. `Box`) — a black-box pure field function that
does not mutate its argument. -/
inductive Source where
  | discrete (b : DiscreteSourceBox)
  | analytic (f : Vq → Vq)

/-- `s.getB(POS)` on the full (shared, mutable) flattened position array:
the array after the call, together with the per-point field values. -/
noncomputable def sourceGetB (s : Source) (POS : List Vq) : List Vq × List V3 :=
  match s with
  | Source.discrete b =>
      let POS' := POS.map (· + dsShift b)
      (POS', dsVals b POS')
  | Source.analytic f => (POS, POS.map fun p => castV (f p))

/-- The in-place translation a source applies to the shared array. -/
def sourceShift : Source → Vq
  | Source.discrete b => dsShift b
  | Source.analytic _ => 0

/-- `[s.getB(POS) for s in sources]` with the *same* array object threaded
through every call (each `DiscreteSourceBox.getB` translates it in place):
returns the final array state and the per-source value lists, in order. -/
noncomputable def queryFold : List Source → List Vq → List Vq × List (List V3)
  | [], POS => (POS, [])
  | s :: rest, POS =>
      let r := sourceGetB s POS
      let r' := queryFold rest r.1
      (r'.1, r.2 :: r'.2)

/-- `np.array([...]).sum(axis=0)`: elementwise sum of the per-source value
lists over an `n`-point batch. -/
def sumVals (n : ℕ) (vss : List (List V3)) : List V3 :=
  vss.foldl (fun acc vs => acc.zipWith (· + ·) vs) (List.replicate n ((0 : ℝ), (0 : ℝ), (0 : ℝ)))

/-- The `ANG` argument of `getBarray`: a Python scalar or an array. -/
inductive AngArg where
  | scalar (a : ℚ)
  | arr (l : List ℚ)

/-- `angleAxisRotationV(B, -ANG, AXIS, ANCHOR)`: rotate each summed field
vector by the negative of its point's angle about its axis and anchor. -/
noncomputable def rotBack (B : List V3) (angs : List ℚ) (axs : List Vq) (anchors : List Vq) :
    List V3 :=
  (B.zip (angs.zip (axs.zip anchors))).map fun e =>
    angleAxisRotationAnch e.1 (-((e.2.1 : ℚ) : ℝ)) (castV e.2.2.1) (castV e.2.2.2)

/-- `getBarray(*sources, POS=…, ANG=…, AXIS=…)`: the emitted warnings are
returned first, the field values second.  A scalar `ANG` is tiled to the
batch length with a warning; an `AXIS` of the wrong length is replaced by
`AXIS[0]` repeated, with a warning; all rotation anchors are zero; the
per-source values are summed elementwise and rotated back by `-ANG`.  With
zero sources it warns and returns the placeholder `[[0, 0, 0]]`. -/
noncomputable def getBarray (sources : List Source) (POS : List Vq) (ANG : AngArg)
    (AXIS : List Vq) : List String × List V3 :=
  if 0 < sources.length then
    let n := POS.length
    let angW : List String × List ℚ :=
      match ANG with
      | AngArg.scalar a =>
          (["ANG and POS have different lengths, repeating ANG by len(POS)"],
           List.replicate n a)
      | AngArg.arr l => ([], l)
    let axW : List String × List Vq :=
      if AXIS.length ≠ n then
        (["AXIS and POS have different lengths, repeating AXIS[0] by len(POS)"],
         List.replicate n (AXIS.headD (0, 0, 1)))
      else ([], AXIS)
    let anchors : List Vq := List.replicate n ((0 : ℚ), (0 : ℚ), (0 : ℚ))
    let B := sumVals n (queryFold sources POS).2
    (angW.1 ++ axW.1, rotBack B angW.2 axW.2 anchors)
  else
    (["no magnetic source returning [[0,0,0]]"], [((0 : ℝ), (0 : ℝ), (0 : ℝ))])

/-!  ## Rigid coordinate systems and sensor collections (geometric claims) -/

/-- Modelled from the spec: the magpylib `RCS` collaborator (imported, not
under `src/`) — a position plus a single `(angle in degrees, axis)`
orientation pair. -/
structure RCS where
  position : V3
  angle : ℝ
  axis : V3

/-- Angle in degrees, in `[0, 360]`, reconstructed from a rotation
quaternion: `arccos(re) * 180 / pi * 2` (with `arccos` clamped, as
magpylib's `arccosSTABLE` and Mathlib's `Real.arccos` both are). -/
noncomputable def reconAngle (q : Quat) : ℝ := Real.arccos q.re * 360 / π

/-- Axis reconstructed from a rotation quaternion; the degenerate zero
rotation falls back to `(0, 0, 1)`, any other one normalizes the imaginary
part. -/
noncomputable def reconAxis (q : Quat) : V3 :=
  if reconAngle q = 0 then (0, 0, 1) else normalize3 (q.imI, q.imJ, q.imK)

/-- Modelled from the spec: `RCS.rotate(angle, axis, anchor)` — the position
rotates rigidly about `anchor`, and the orientation is recomputed from the
quaternion composition `P * Q` of the applied rotation with the current
orientation ("rotations compose by sequential axis-angle application"),
reconstructed back into a single `(angle, axis)` pair. -/
noncomputable def RCS.rotate (s : RCS) (angle : ℝ) (axis : V3) (anchor : V3) : RCS :=
  let r := qmul (getRotQuat angle axis) (getRotQuat s.angle s.axis)
  { position := anchor + angleAxisRotation (s.position - anchor) angle axis
    angle := reconAngle r
    axis := reconAxis r }

/-- `SensorCollection` for the geometric claims: its own `rcs` plus the
descendant point-sensor states.  Nested collections and surface sensors
propagate `rotate` to each descendant with the identical resolved anchor,
so a flat descendant list loses no generality. -/
structure SensorCollection where
  rcs : RCS
  sensors : List RCS

/-- `SensorCollection.rotate(angle, axis, anchor)`: rotate the collection's
own `rcs`, resolve the `'self.position'` string default to the collection's
(then unchanged) position, and apply the identical rotation about the
resolved anchor to every descendant. -/
noncomputable def SensorCollection.rotate (c : SensorCollection) (angle : ℝ) (axis : V3)
    (anchor : Option V3) : SensorCollection :=
  let anc := anchor.getD c.rcs.position
  { rcs := c.rcs.rotate angle axis anc
    sensors := c.sensors.map fun s => s.rotate angle axis anc }

/-!  ## Surface sensor -/

/-- `np.linspace` over `ℝ` (also `np.mgrid[a:b:n*1j]`; `n = 1` gives `[a]`). -/
noncomputable def linspaceR (a b : ℝ) (n : ℕ) : List ℝ :=
  (List.range n).map fun i : ℕ => a + (i : ℝ) * (b - a) / ((n : ℝ) - 1)

/-- The `SurfaceSensor` state: its own `RCS` fields, the stored
`_dimension`/`_Nelem`, and the derived `_positions`/`_angles`/`_axes`
recomputed by `update`. -/
structure SurfaceSensor where
  position : V3
  angle : ℝ
  axis : V3
  dimension : ℝ × ℝ
  Nelem : ℕ × ℕ
  samplePositions : List V3
  sampleAngles : List ℝ
  sampleAxes : List V3

/-- `SurfaceSensor.update(pos, angle, axis, dim, Nelem)`: omitted arguments
keep their previous value; a scalar `dim` broadcasts to both axes; a scalar
`Nelem = N` is factored as `(floor(sqrt(N)), floor(N / floor(sqrt(N))))`;
if either grid dimension is `1` the stored dimension collapses to `(0, 0)`;
the sample grid is the `mgrid` of `[-dim/2, dim/2]` per axis at `z = 0`,
each point rotated by the sensor's `(angle, axis)` about the origin and
translated by its position. -/
noncomputable def SurfaceSensor.update (s : SurfaceSensor) (pos : Option V3)
    (angle : Option ℝ) (axis : Option V3) (dim : Option (ℝ ⊕ (ℝ × ℝ)))
    (Nelem : Option (ℕ ⊕ (ℕ × ℕ))) : SurfaceSensor :=
  let position := pos.getD s.position
  let ang := angle.getD s.angle
  let ax := axis.getD s.axis
  let dim0 : ℝ × ℝ :=
    match dim with
    | none => s.dimension
    | some (Sum.inl d) => (d, d)
    | some (Sum.inr p) => p
  let ne : ℕ × ℕ :=
    match Nelem with
    | none => s.Nelem
    | some (Sum.inl n) => (Nat.sqrt n, n / Nat.sqrt n)
    | some (Sum.inr p) => p
  let dim1 : ℝ × ℝ := if ne.1 = 1 ∨ ne.2 = 1 then (0, 0) else dim0
  let grid : List V3 :=
    (linspaceR (-dim1.1 / 2) (dim1.1 / 2) ne.1).flatMap fun gx =>
      (linspaceR (-dim1.2 / 2) (dim1.2 / 2) ne.2).map fun gy => (gx, gy, (0 : ℝ))
  let posrot := grid.map fun p => angleAxisRotationAnch p ang ax (0, 0, 0)
  { position := position
    angle := ang
    axis := ax
    dimension := dim1
    Nelem := ne
    samplePositions := posrot.map (· + position)
    sampleAngles := List.replicate grid.length ang
    sampleAxes := List.replicate grid.length ax }

/-- `SurfaceSensor.__init__(Nelem, dim, pos, angle, axis)`: set the `RCS`
state and run `update(Nelem=Nelem, dim=dim)` (the placeholder stored
dimension/Nelem are never read since both arguments are supplied). -/
noncomputable def mkSurfaceSensor (Nelem : ℕ ⊕ (ℕ × ℕ)) (dim : ℝ ⊕ (ℝ × ℝ)) (pos : V3)
    (angle : ℝ) (axis : V3) : SurfaceSensor :=
  SurfaceSensor.update ⟨pos, angle, axis, (0, 0), (1, 1), [], [], []⟩
    none none none (some dim) (some Nelem)

/-!  ## Circular sensor array -/

/-- `CircularSensorArray.initialize`'s angle list:
`np.deg2rad(np.linspace(start_angle, start_angle + 360, N + 1))[:-1]`. -/
noncomputable def circAngles (N : ℕ) (start : ℝ) : List ℝ :=
  ((linspaceR start (start + 360) (N + 1)).map deg2rad).dropLast

/-- The children built in `CircularSensorArray.__init__` before
`initialize`: `SurfaceSensor(pos=(i,0,0), dim=elem_dim, Nelem=Nelem)`. -/
noncomputable def circChildren0 (N : ℕ) (elemDim : ℝ × ℝ) (ne : ℕ × ℕ) : List SurfaceSensor :=
  (List.range N).map fun i =>
    mkSurfaceSensor (Sum.inr ne) (Sum.inr elemDim) ((i : ℝ), 0, 0) 0 (0, 0, 1)

/-- `CircularSensorArray.__init__(Rs, elem_dim, Nelem, num_of_sensors,
start_angle)` = construct the children, then `initialize`: each child is
`update`d to position `(Rs cos θ, Rs sin θ, 0)` at its angle `θ`, local
angle `0`, axis `(0, 0, 1)`, with the stored `elem_dim`/`Nelem`. -/
noncomputable def circInitialize (N : ℕ) (Rs : ℝ) (start : ℝ) (elemDim : ℝ × ℝ)
    (ne : ℕ × ℕ) : List SurfaceSensor :=
  ((circChildren0 N elemDim ne).zip (circAngles N start)).map fun st =>
    st.1.update (some (Rs * Real.cos st.2, Rs * Real.sin st.2, 0)) (some 0)
      (some (0, 0, 1)) (some (Sum.inr elemDim)) (some (Sum.inr ne))

/-!  ## Quaternion and rotation lemmas -/

theorem quatExt {a b : Quat} (h1 : a.re = b.re) (h2 : a.imI = b.imI)
    (h3 : a.imJ = b.imJ) (h4 : a.imK = b.imK) : a = b := by
  cases a; cases b; simp only [Quat.mk.injEq]; exact ⟨h1, h2, h3, h4⟩

theorem qmul_assoc (a b c : Quat) : qmul (qmul a b) c = qmul a (qmul b c) := by
  apply quatExt <;> simp [qmul] <;> ring

theorem qmul_qone (a : Quat) : qmul a qone = a := by
  apply quatExt <;> simp [qmul, qone]

theorem qone_qmul (a : Quat) : qmul qone a = a := by
  apply quatExt <;> simp [qmul, qone]

theorem qconj_qconj (a : Quat) : qconj (qconj a) = a := by
  apply quatExt <;> simp [qconj]

theorem qnormSq_qmul (a b : Quat) : qnormSq (qmul a b) = qnormSq a * qnormSq b := by
  simp only [qnormSq, qmul]; ring

theorem qconj_qmul_self (a : Quat) (h : qnormSq a = 1) : qmul (qconj a) a = qone := by
  simp only [qnormSq] at h
  apply quatExt
  · simp only [qmul, qconj, qone]; linear_combination h
  · simp only [qmul, qconj, qone]; ring
  · simp only [qmul, qconj, qone]; ring
  · simp only [qmul, qconj, qone]; ring

theorem conjugation_re (q : Quat) (v : V3) :
    (qmul q (qmul (pureQ v) (qconj q))).re = 0 := by
  simp only [qmul, qconj, pureQ]; ring

theorem pureQ_of_re_zero {r : Quat} (h : r.re = 0) : pureQ (r.imI, r.imJ, r.imK) = r := by
  apply quatExt
  · exact h.symm
  · rfl
  · rfl
  · rfl

theorem getRotQuat_neg (θ : ℝ) (a : V3) : getRotQuat (-θ) a = qconj (getRotQuat θ a) := by
  have h : -θ * π / 360 = -(θ * π / 360) := by ring
  apply quatExt <;> simp only [getRotQuat, qconj, h, Real.cos_neg, Real.sin_neg] <;> ring

theorem norm3_pos {v : V3} (hv : v ≠ 0) : 0 < norm3 v := by
  rcases v with ⟨x, y, z⟩
  apply Real.sqrt_pos.mpr
  rcases lt_or_eq_of_le (by positivity : (0:ℝ) ≤ x ^ 2 + y ^ 2 + z ^ 2) with h | h
  · exact h
  · exfalso
    apply hv
    have hx : x = 0 := by nlinarith [sq_nonneg x, sq_nonneg y, sq_nonneg z]
    have hy : y = 0 := by nlinarith [sq_nonneg x, sq_nonneg y, sq_nonneg z]
    have hz : z = 0 := by nlinarith [sq_nonneg x, sq_nonneg y, sq_nonneg z]
    simp [hx, hy, hz, Prod.ext_iff]

theorem norm3_sq {v : V3} : norm3 v ^ 2 = v.1 ^ 2 + v.2.1 ^ 2 + v.2.2 ^ 2 :=
  Real.sq_sqrt (by positivity)

theorem normalize3_sumsq {v : V3} (hv : v ≠ 0) :
    (normalize3 v).1 ^ 2 + (normalize3 v).2.1 ^ 2 + (normalize3 v).2.2 ^ 2 = 1 := by
  have hp := norm3_pos hv
  have hne : norm3 v ≠ 0 := ne_of_gt hp
  have hsq := @norm3_sq v
  simp only [normalize3]
  field_simp
  linarith [hsq]

theorem getRotQuat_unit (θ : ℝ) {a : V3} (ha : a ≠ 0) : qnormSq (getRotQuat θ a) = 1 := by
  have hn := normalize3_sumsq ha
  have hsc := Real.sin_sq_add_cos_sq (θ * π / 360)
  simp only [qnormSq, getRotQuat]
  linear_combination (Real.sin (θ * π / 360)) ^ 2 * hn + hsc

theorem pureQ_inj {w1 w2 : V3} (h : pureQ w1 = pureQ w2) : w1 = w2 := by
  rcases w1 with ⟨x1, y1, z1⟩; rcases w2 with ⟨x2, y2, z2⟩
  simp only [pureQ, Quat.mk.injEq] at h
  simp [Prod.ext_iff, h.2.1, h.2.2.1, h.2.2.2]

theorem angleAxisRotation_as_quat (v : V3) (θ : ℝ) (a : V3) :
    pureQ (angleAxisRotation v θ a) =
      qmul (getRotQuat θ a) (qmul (pureQ v) (qconj (getRotQuat θ a))) := by
  simp only [angleAxisRotation]
  exact pureQ_of_re_zero (conjugation_re _ _)

theorem angleAxisRotation_leftInv (v : V3) (θ : ℝ) {a : V3} (ha : a ≠ 0) :
    angleAxisRotation (angleAxisRotation v θ a) (-θ) a = v := by
  have hu := getRotQuat_unit θ ha
  have hcq : qmul (qconj (getRotQuat θ a)) (getRotQuat θ a) = qone :=
    qconj_qmul_self _ hu
  apply pureQ_inj
  rw [angleAxisRotation_as_quat, getRotQuat_neg, angleAxisRotation_as_quat, qconj_qconj]
  rw [qmul_assoc (getRotQuat θ a) _ _, qmul_assoc (pureQ v) _ _, hcq, qmul_qone,
    ← qmul_assoc, hcq, qone_qmul]

theorem angleAxisRotation_zero (v : V3) (a : V3) : angleAxisRotation v 0 a = v := by
  have h : getRotQuat 0 a = qone := by
    apply quatExt <;> simp [getRotQuat, qone]
  have hc : qconj qone = qone := by
    apply quatExt <;> simp [qconj, qone]
  simp only [angleAxisRotation, h, hc, qone_qmul, qmul_qone]
  simp [pureQ]

theorem angleAxisRotation_zero_vec (θ : ℝ) (a : V3) :
    angleAxisRotation (0 : V3) θ a = 0 := by
  have h : ∀ q : Quat, qmul q (qmul (pureQ (0 : V3)) (qconj q)) = ⟨0, 0, 0, 0⟩ := by
    intro q
    apply quatExt <;> simp [qmul, pureQ, qconj]
  apply pureQ_inj
  simp only [angleAxisRotation, h]
  apply quatExt <;> simp [pureQ]

theorem angleAxisRotationAnch_leftInv (v : V3) (θ : ℝ) {a : V3} (ha : a ≠ 0) (anchor : V3) :
    angleAxisRotationAnch (angleAxisRotationAnch v θ a anchor) (-θ) a anchor = v := by
  simp only [angleAxisRotationAnch, add_sub_cancel_left]
  rw [angleAxisRotation_leftInv (v - anchor) θ ha]
  abel

theorem angleAxisRotationAnch_zero (v : V3) (a anchor : V3) :
    angleAxisRotationAnch v 0 a anchor = v := by
  simp only [angleAxisRotationAnch, angleAxisRotation_zero]
  abel

theorem norm3_scale (t : ℝ) (v : V3) :
    norm3 (t * v.1, t * v.2.1, t * v.2.2) = |t| * norm3 v := by
  have h : (t * v.1) ^ 2 + (t * v.2.1) ^ 2 + (t * v.2.2) ^ 2 =
      t ^ 2 * (v.1 ^ 2 + v.2.1 ^ 2 + v.2.2 ^ 2) := by ring
  simp only [norm3]
  rw [h, Real.sqrt_mul (sq_nonneg t), Real.sqrt_sq_eq_abs]

theorem normalize3_of_unit {v : V3} (hv : norm3 v = 1) : normalize3 v = v := by
  rcases v with ⟨x, y, z⟩
  simp only [normalize3] at *
  rw [hv]
  simp

theorem normalize3_smul_unit (t : ℝ) (ht : 0 < t) {v : V3} (hv : norm3 v = 1) :
    normalize3 (t * v.1, t * v.2.1, t * v.2.2) = v := by
  have hn := norm3_scale t v
  rw [hv, mul_one, abs_of_pos ht] at hn
  rcases v with ⟨x, y, z⟩
  have ht' : t ≠ 0 := ne_of_gt ht
  simp only [normalize3, hn, Prod.mk.injEq]
  exact ⟨mul_div_cancel_left₀ x ht', mul_div_cancel_left₀ y ht', mul_div_cancel_left₀ z ht'⟩

theorem normalize3_zero : normalize3 (0 : V3) = 0 := by
  simp [normalize3]

theorem norm3_normalize3 {v : V3} (hv : v ≠ 0) : norm3 (normalize3 v) = 1 := by
  have hsum := normalize3_sumsq hv
  simp only [norm3] at *
  rw [hsum, Real.sqrt_one]

theorem normalize3_idem (v : V3) : normalize3 (normalize3 v) = normalize3 v := by
  rcases eq_or_ne v 0 with h | h
  · rw [h, normalize3_zero, normalize3_zero]
  · exact normalize3_of_unit (norm3_normalize3 h)

theorem quat_reconstruct {r : Quat} (h : qnormSq r = 1) :
    getRotQuat (reconAngle r) (reconAxis r) = r := by
  simp only [qnormSq] at h
  have hre2 : r.re ^ 2 ≤ 1 := by nlinarith [sq_nonneg r.imI, sq_nonneg r.imJ, sq_nonneg r.imK]
  have h1 : -1 ≤ r.re := by nlinarith
  have h2 : r.re ≤ 1 := by nlinarith
  have hhalf : reconAngle r * π / 360 = Real.arccos r.re := by
    simp only [reconAngle]
    field_simp
  have hcos : Real.cos (reconAngle r * π / 360) = r.re := by
    rw [hhalf, Real.cos_arccos h1 h2]
  have hsin : Real.sin (reconAngle r * π / 360) = Real.sqrt (1 - r.re ^ 2) := by
    rw [hhalf, Real.sin_arccos]
  have him : 1 - r.re ^ 2 = r.imI ^ 2 + r.imJ ^ 2 + r.imK ^ 2 := by linarith
  have hm : Real.sqrt (1 - r.re ^ 2) = norm3 (r.imI, r.imJ, r.imK) := by
    rw [him]; simp [norm3]
  by_cases hz : reconAngle r = 0
  · have harc : Real.arccos r.re = 0 := by
      rw [hz] at hhalf
      simpa using hhalf.symm
    have hre1 : r.re = 1 := le_antisymm h2 (Real.arccos_eq_zero.mp harc)
    have himz : r.imI ^ 2 + r.imJ ^ 2 + r.imK ^ 2 = 0 := by nlinarith
    have hiI : r.imI = 0 := by
      have : r.imI ^ 2 = 0 := by nlinarith [sq_nonneg r.imJ, sq_nonneg r.imK]
      exact sq_eq_zero_iff.mp this
    have hiJ : r.imJ = 0 := by
      have : r.imJ ^ 2 = 0 := by nlinarith [sq_nonneg r.imI, sq_nonneg r.imK]
      exact sq_eq_zero_iff.mp this
    have hiK : r.imK = 0 := by
      have : r.imK ^ 2 = 0 := by nlinarith [sq_nonneg r.imI, sq_nonneg r.imJ]
      exact sq_eq_zero_iff.mp this
    apply quatExt
    · simp only [getRotQuat]; rw [hcos]
    · simp only [getRotQuat]; rw [hsin, hre1]; simp [hiI]
    · simp only [getRotQuat]; rw [hsin, hre1]; simp [hiJ]
    · simp only [getRotQuat]; rw [hsin, hre1]; simp [hiK]
  · have haxis : reconAxis r = normalize3 (r.imI, r.imJ, r.imK) := by
      simp [reconAxis, hz]
    have hmz : norm3 (r.imI, r.imJ, r.imK) = 0 →
        r.imI = 0 ∧ r.imJ = 0 ∧ r.imK = 0 := by
      intro h0
      have hsum : r.imI ^ 2 + r.imJ ^ 2 + r.imK ^ 2 = 0 := by
        have := Real.sqrt_eq_zero (by positivity :
          (0:ℝ) ≤ r.imI ^ 2 + r.imJ ^ 2 + r.imK ^ 2) |>.mp
        exact this h0
      refine ⟨?_, ?_, ?_⟩ <;> apply sq_eq_zero_iff.mp <;>
        nlinarith [sq_nonneg r.imI, sq_nonneg r.imJ, sq_nonneg r.imK]
    have hg : ∀ x : ℝ, (norm3 (r.imI, r.imJ, r.imK) = 0 → x = 0) →
        norm3 (r.imI, r.imJ, r.imK) * (x / norm3 (r.imI, r.imJ, r.imK)) = x := by
      intro x hx
      rcases eq_or_ne (norm3 (r.imI, r.imJ, r.imK)) 0 with h0 | h0
      · rw [h0, hx h0]; simp
      · rw [mul_comm, div_mul_cancel₀ _ h0]
    have hidem := normalize3_idem (r.imI, r.imJ, r.imK)
    apply quatExt
    · simp only [getRotQuat]; rw [hcos]
    · simp only [getRotQuat, haxis]
      rw [hidem]
      simp only [normalize3]
      rw [hsin, hm]
      exact hg r.imI fun h0 => (hmz h0).1
    · simp only [getRotQuat, haxis]
      rw [hidem]
      simp only [normalize3]
      rw [hsin, hm]
      exact hg r.imJ fun h0 => (hmz h0).2.1
    · simp only [getRotQuat, haxis]
      rw [hidem]
      simp only [normalize3]
      rw [hsin, hm]
      exact hg r.imK fun h0 => (hmz h0).2.2

theorem RCS_rotate_roundtrip_pos (s : RCS) (θ : ℝ) {ax : V3} (anc : V3) (hax : ax ≠ 0) :
    ((s.rotate θ ax anc).rotate (-θ) ax anc).position = s.position := by
  simp only [RCS.rotate]
  rw [add_sub_cancel_left, angleAxisRotation_leftInv (s.position - anc) θ hax]
  abel

theorem RCS_rotate_roundtrip (s : RCS) (θ : ℝ) {ax : V3} (anc : V3) (hax : ax ≠ 0)
    (h1 : 0 < s.angle) (h2 : s.angle < 360) (h3 : norm3 s.axis = 1) :
    (s.rotate θ ax anc).rotate (-θ) ax anc = s := by
  obtain ⟨spos, sang, sax⟩ := s
  simp only at h1 h2 h3
  have haxne : sax ≠ 0 := by
    intro h0
    rw [h0] at h3
    simp [norm3] at h3
  have hP : qnormSq (getRotQuat θ ax) = 1 := getRotQuat_unit θ hax
  have hQ : qnormSq (getRotQuat sang sax) = 1 := getRotQuat_unit _ haxne
  have hr1 : qnormSq (qmul (getRotQuat θ ax) (getRotQuat sang sax)) = 1 := by
    rw [qnormSq_qmul, hP, hQ, one_mul]
  have hrec := quat_reconstruct hr1
  have hQ2 : qmul (getRotQuat (-θ) ax)
      (getRotQuat (reconAngle (qmul (getRotQuat θ ax) (getRotQuat sang sax)))
        (reconAxis (qmul (getRotQuat θ ax) (getRotQuat sang sax))))
      = getRotQuat sang sax := by
    rw [hrec, getRotQuat_neg, ← qmul_assoc, qconj_qmul_self _ hP, qone_qmul]
  have hb1 : 0 ≤ sang * π / 360 := by nlinarith [Real.pi_pos]
  have hb2 : sang * π / 360 ≤ π := by nlinarith [Real.pi_pos]
  have hQre : (getRotQuat sang sax).re = Real.cos (sang * π / 360) := rfl
  have hangle : reconAngle (getRotQuat sang sax) = sang := by
    simp only [reconAngle, hQre, Real.arccos_cos hb1 hb2]
    field_simp
  have hsinpos : 0 < Real.sin (sang * π / 360) := by
    apply Real.sin_pos_of_pos_of_lt_pi
    · nlinarith [Real.pi_pos]
    · nlinarith [Real.pi_pos]
  have haxisQ : reconAxis (getRotQuat sang sax) = sax := by
    have hz : reconAngle (getRotQuat sang sax) ≠ 0 := by
      rw [hangle]; exact ne_of_gt h1
    have hnorm1 : normalize3 sax = sax := normalize3_of_unit h3
    have hQim : ((getRotQuat sang sax).imI, (getRotQuat sang sax).imJ,
        (getRotQuat sang sax).imK) =
        (Real.sin (sang * π / 360) * sax.1,
         Real.sin (sang * π / 360) * sax.2.1,
         Real.sin (sang * π / 360) * sax.2.2) := by
      simp [getRotQuat, hnorm1]
    simp only [reconAxis, if_neg hz]
    rw [hQim]
    exact normalize3_smul_unit _ hsinpos h3
  have hpos : anc + angleAxisRotation
      ((anc + angleAxisRotation (spos - anc) θ ax) - anc) (-θ) ax = spos := by
    rw [add_sub_cancel_left, angleAxisRotation_leftInv (spos - anc) θ hax]
    abel
  simp only [RCS.rotate]
  rw [hQ2, hpos, hangle, haxisQ]

/-!  ## Concrete tables used by the failing inputs -/

/-- A complete, uniformly spaced 2×2×2 table with field `B = (x, 0, 0)`. -/
def rowsCube : List Row :=
  [⟨0, 0, 0, 0, 0, 0⟩, ⟨0, 0, 1, 0, 0, 0⟩, ⟨0, 1, 0, 0, 0, 0⟩, ⟨0, 1, 1, 0, 0, 0⟩,
   ⟨1, 0, 0, 1, 0, 0⟩, ⟨1, 0, 1, 1, 0, 0⟩, ⟨1, 1, 0, 1, 0, 0⟩, ⟨1, 1, 1, 1, 0, 0⟩]

/-- `DiscreteSourceBox(rowsCube, pos=(1/2, 0, 0))`: nonzero placement. -/
def boxA : DiscreteSourceBox := mkDiscreteSourceBox rowsCube (1/2, 0, 0) 0 (0, 0, 1)

/-- `DiscreteSourceBox(rowsCube)`: default placement. -/
def boxB : DiscreteSourceBox := mkDiscreteSourceBox rowsCube (0, 0, 0) 0 (0, 0, 1)

/-- A complete rectilinear but *non-uniformly spaced* 3×2×2 table
(`x ∈ {0, 1, 3}`) with field `B = (x, 0, 0)`. -/
def rowsStretch : List Row :=
  [⟨0, 0, 0, 0, 0, 0⟩, ⟨0, 0, 1, 0, 0, 0⟩, ⟨0, 1, 0, 0, 0, 0⟩, ⟨0, 1, 1, 0, 0, 0⟩,
   ⟨1, 0, 0, 1, 0, 0⟩, ⟨1, 0, 1, 1, 0, 0⟩, ⟨1, 1, 0, 1, 0, 0⟩, ⟨1, 1, 1, 1, 0, 0⟩,
   ⟨3, 0, 0, 3, 0, 0⟩, ⟨3, 0, 1, 3, 0, 0⟩, ⟨3, 1, 0, 3, 0, 0⟩, ⟨3, 1, 1, 3, 0, 0⟩]

/-- `DiscreteSourceBox(rowsStretch)` with default placement and angle 0. -/
def boxStretch : DiscreteSourceBox := mkDiscreteSourceBox rowsStretch (0, 0, 0) 0 (0, 0, 1)

/-- `DiscreteSourceBox(rowsCube, angle=90)`: a rotated discrete source. -/
def boxRot : DiscreteSourceBox := mkDiscreteSourceBox rowsCube (0, 0, 0) 90 (0, 0, 1)

theorem sortRows_rowsCube : sortRows rowsCube = rowsCube := by
  norm_num [rowsCube, sortRows, insRow, rowLe]

theorem boxA_eval : boxA =
    { gx := [0, 1], gy := [0, 1], gz := [0, 1], ny := 2, nz := 2,
      bxFlat := [0, 0, 0, 0, 1, 1, 1, 1],
      byFlat := [0, 0, 0, 0, 0, 0, 0, 0],
      bzFlat := [0, 0, 0, 0, 0, 0, 0, 0],
      center := (1/2, 1/2, 1/2), dimension := (1, 1, 1),
      position := (1, 1/2, 1/2), angle := 0, axis := (0, 0, 1) } := by
  simp only [boxA, mkDiscreteSourceBox, sortRows_rowsCube]
  norm_num [rowsCube, listMin, listMax, linspaceQ, List.range_succ, Prod.ext_iff]

theorem boxB_eval : boxB =
    { gx := [0, 1], gy := [0, 1], gz := [0, 1], ny := 2, nz := 2,
      bxFlat := [0, 0, 0, 0, 1, 1, 1, 1],
      byFlat := [0, 0, 0, 0, 0, 0, 0, 0],
      bzFlat := [0, 0, 0, 0, 0, 0, 0, 0],
      center := (1/2, 1/2, 1/2), dimension := (1, 1, 1),
      position := (1/2, 1/2, 1/2), angle := 0, axis := (0, 0, 1) } := by
  simp only [boxB, mkDiscreteSourceBox, sortRows_rowsCube]
  norm_num [rowsCube, listMin, listMax, linspaceQ, List.range_succ, Prod.ext_iff]

theorem sortRows_rowsStretch : sortRows rowsStretch = rowsStretch := by
  norm_num [rowsStretch, sortRows, insRow, rowLe]

theorem boxStretch_eval : boxStretch =
    { gx := [0, 3/2, 3], gy := [0, 1], gz := [0, 1], ny := 2, nz := 2,
      bxFlat := [0, 0, 0, 0, 1, 1, 1, 1, 3, 3, 3, 3],
      byFlat := [0, 0, 0, 0, 0, 0, 0, 0, 0, 0, 0, 0],
      bzFlat := [0, 0, 0, 0, 0, 0, 0, 0, 0, 0, 0, 0],
      center := (3/2, 1/2, 1/2), dimension := (3, 1, 1),
      position := (3/2, 1/2, 1/2), angle := 0, axis := (0, 0, 1) } := by
  simp only [boxStretch, mkDiscreteSourceBox, sortRows_rowsStretch]
  norm_num [rowsStretch, listMin, listMax, linspaceQ, List.range_succ, Prod.ext_iff]

theorem boxRot_eval : boxRot =
    { gx := [0, 1], gy := [0, 1], gz := [0, 1], ny := 2, nz := 2,
      bxFlat := [0, 0, 0, 0, 1, 1, 1, 1],
      byFlat := [0, 0, 0, 0, 0, 0, 0, 0],
      bzFlat := [0, 0, 0, 0, 0, 0, 0, 0],
      center := (1/2, 1/2, 1/2), dimension := (1, 1, 1),
      position := (1/2, 1/2, 1/2), angle := 90, axis := (0, 0, 1) } := by
  simp only [boxRot, mkDiscreteSourceBox, sortRows_rowsCube]
  norm_num [rowsCube, listMin, listMax, linspaceQ, List.range_succ, Prod.ext_iff]

theorem interpA_quarter : interpFunc boxA ((1 : ℚ)/4, 1/2, 1/2) = (1/4, 0, 0) := by
  rw [boxA_eval]
  norm_num [interpFunc, interp3, cellIdx, countLt, cellFrac, gridVal, Prod.ext_iff]

theorem interpA_threequarter : interpFunc boxA ((3 : ℚ)/4, 1/2, 1/2) = (3/4, 0, 0) := by
  rw [boxA_eval]
  norm_num [interpFunc, interp3, cellIdx, countLt, cellFrac, gridVal, Prod.ext_iff]

theorem interpB_quarter : interpFunc boxB ((1 : ℚ)/4, 1/2, 1/2) = (1/4, 0, 0) := by
  rw [boxB_eval]
  norm_num [interpFunc, interp3, cellIdx, countLt, cellFrac, gridVal, Prod.ext_iff]

theorem interpB_threequarter : interpFunc boxB ((3 : ℚ)/4, 1/2, 1/2) = (3/4, 0, 0) := by
  rw [boxB_eval]
  norm_num [interpFunc, interp3, cellIdx, countLt, cellFrac, gridVal, Prod.ext_iff]

theorem interpStretch_at_gridpoint : interpFunc boxStretch (1, 0, 0) = (2/3, 0, 0) := by
  rw [boxStretch_eval]
  norm_num [interpFunc, interp3, cellIdx, countLt, cellFrac, gridVal, Prod.ext_iff]

theorem dsShift_boxA : dsShift boxA = (-(1 : ℚ)/2, 0, 0) := by
  rw [boxA_eval]
  norm_num [dsShift, Prod.ext_iff]

theorem dsShift_boxB : dsShift boxB = (0, 0, 0) := by
  rw [boxB_eval]
  norm_num [dsShift, Prod.ext_iff]

theorem dsShift_boxStretch : dsShift boxStretch = (0, 0, 0) := by
  rw [boxStretch_eval]
  norm_num [dsShift, Prod.ext_iff]

theorem dsShift_boxRot : dsShift boxRot = (0, 0, 0) := by
  rw [boxRot_eval]
  norm_num [dsShift, Prod.ext_iff]

theorem boxA_angle : boxA.angle = 0 := by rw [boxA_eval]

theorem boxB_angle : boxB.angle = 0 := by rw [boxB_eval]

theorem dsVals_boxA_quarter :
    dsVals boxA [((1 : ℚ)/4, 1/2, 1/2)] = [((1 : ℝ)/4, 0, 0)] := by
  simp only [dsVals, boxA_angle, List.map_cons, List.map_nil, interpA_quarter]
  norm_num [castV, Prod.ext_iff]

theorem dsVals_boxA_threequarter :
    dsVals boxA [((3 : ℚ)/4, 1/2, 1/2)] = [((3 : ℝ)/4, 0, 0)] := by
  simp only [dsVals, boxA_angle, List.map_cons, List.map_nil, interpA_threequarter]
  norm_num [castV, Prod.ext_iff]

theorem dsVals_boxB_quarter :
    dsVals boxB [((1 : ℚ)/4, 1/2, 1/2)] = [((1 : ℝ)/4, 0, 0)] := by
  simp only [dsVals, boxB_angle, List.map_cons, List.map_nil, interpB_quarter]
  norm_num [castV, Prod.ext_iff]

theorem dsVals_boxB_threequarter :
    dsVals boxB [((3 : ℚ)/4, 1/2, 1/2)] = [((3 : ℝ)/4, 0, 0)] := by
  simp only [dsVals, boxB_angle, List.map_cons, List.map_nil, interpB_threequarter]
  norm_num [castV, Prod.ext_iff]

theorem srcA_eval : sourceGetB (Source.discrete boxA) [((3 : ℚ)/4, 1/2, 1/2)] =
    ([((1 : ℚ)/4, 1/2, 1/2)], [((1 : ℝ)/4, 0, 0)]) := by
  simp only [sourceGetB, dsShift_boxA]
  have hPOS : List.map (· + (-(1 : ℚ)/2, (0 : ℚ), (0 : ℚ))) [((3 : ℚ)/4, 1/2, 1/2)] =
      [((1 : ℚ)/4, 1/2, 1/2)] := by
    norm_num [Prod.ext_iff]
  rw [hPOS, dsVals_boxA_quarter]

theorem srcB_shifted_eval : sourceGetB (Source.discrete boxB) [((1 : ℚ)/4, 1/2, 1/2)] =
    ([((1 : ℚ)/4, 1/2, 1/2)], [((1 : ℝ)/4, 0, 0)]) := by
  simp only [sourceGetB, dsShift_boxB]
  have hPOS : List.map (· + ((0 : ℚ), (0 : ℚ), (0 : ℚ))) [((1 : ℚ)/4, 1/2, 1/2)] =
      [((1 : ℚ)/4, 1/2, 1/2)] := by
    norm_num [Prod.ext_iff]
  rw [hPOS, dsVals_boxB_quarter]

theorem srcB_fresh_eval : sourceGetB (Source.discrete boxB) [((3 : ℚ)/4, 1/2, 1/2)] =
    ([((3 : ℚ)/4, 1/2, 1/2)], [((3 : ℝ)/4, 0, 0)]) := by
  simp only [sourceGetB, dsShift_boxB]
  have hPOS : List.map (· + ((0 : ℚ), (0 : ℚ), (0 : ℚ))) [((3 : ℚ)/4, 1/2, 1/2)] =
      [((3 : ℚ)/4, 1/2, 1/2)] := by
    norm_num [Prod.ext_iff]
  rw [hPOS, dsVals_boxB_threequarter]

theorem queryFold_AB :
    queryFold [Source.discrete boxA, Source.discrete boxB] [((3 : ℚ)/4, 1/2, 1/2)] =
      ([((1 : ℚ)/4, 1/2, 1/2)], [[((1 : ℝ)/4, 0, 0)], [((1 : ℝ)/4, 0, 0)]]) := by
  simp only [queryFold, srcA_eval, srcB_shifted_eval]

theorem queryFold_A :
    queryFold [Source.discrete boxA] [((3 : ℚ)/4, 1/2, 1/2)] =
      ([((1 : ℚ)/4, 1/2, 1/2)], [[((1 : ℝ)/4, 0, 0)]]) := by
  simp only [queryFold, srcA_eval]

theorem queryFold_B :
    queryFold [Source.discrete boxB] [((3 : ℚ)/4, 1/2, 1/2)] =
      ([((3 : ℚ)/4, 1/2, 1/2)], [[((3 : ℝ)/4, 0, 0)]]) := by
  simp only [queryFold, srcB_fresh_eval]

theorem getBarray_eval_shared (src : List Source) (st : List Vq) (val : List (List V3))
    (w : V3)
    (hq : queryFold src [((3 : ℚ)/4, 1/2, 1/2)] = (st, val))
    (hs : sumVals 1 val = [w]) (hne : src ≠ []) :
    (getBarray src [((3 : ℚ)/4, 1/2, 1/2)] (AngArg.arr [0]) [((0 : ℚ), 0, 1)]).2 = [w] := by
  have hlen : 0 < src.length := List.length_pos.mpr hne
  simp only [getBarray, if_pos hlen, hq]
  simp only [List.length_cons, List.length_nil]
  norm_num
  rw [hs]
  simp [rotBack, angleAxisRotationAnch_zero]

/-- C1: the code violates superposition.  With `A = DiscreteSourceBox(data,
pos=(1/2,0,0))` and `B = DiscreteSourceBox(data)` queried at the single
point `(3/4, 1/2, 1/2)` (angles 0), the batched aggregation returns
`[(1/2, 0, 0)]`, while the elementwise sum of the two separate aggregations
is `[(1/4, 0, 0)] + [(3/4, 0, 0)] = [(1, 0, 0)]`: `A.getB` translated the
shared `POS` array in place, so `B` was queried at the wrong point. -/
theorem getBarray_superposition_violation :
    (getBarray [Source.discrete boxA, Source.discrete boxB] [((3 : ℚ)/4, 1/2, 1/2)]
        (AngArg.arr [0]) [((0 : ℚ), 0, 1)]).2 ≠
      List.zipWith (· + ·)
        (getBarray [Source.discrete boxA] [((3 : ℚ)/4, 1/2, 1/2)] (AngArg.arr [0])
            [((0 : ℚ), 0, 1)]).2
        (getBarray [Source.discrete boxB] [((3 : ℚ)/4, 1/2, 1/2)] (AngArg.arr [0])
            [((0 : ℚ), 0, 1)]).2 := by
  have h1 := getBarray_eval_shared _ _ _ ((1 : ℝ)/2, 0, 0) queryFold_AB
    (by norm_num [sumVals, Prod.ext_iff]) (by simp)
  have h2 := getBarray_eval_shared _ _ _ ((1 : ℝ)/4, 0, 0) queryFold_A
    (by norm_num [sumVals, Prod.ext_iff]) (by simp)
  have h3 := getBarray_eval_shared _ _ _ ((3 : ℝ)/4, 0, 0) queryFold_B
    (by norm_num [sumVals, Prod.ext_iff]) (by simp)
  rw [h1, h2, h3]
  norm_num [Prod.ext_iff]

/-- The total in-place translation accumulated by a prefix of the source
list. -/
def totalShift (l : List Source) : Vq := (l.map sourceShift).sum

theorem sourceGetB_fst (s : Source) (POS : List Vq) :
    (sourceGetB s POS).1 = POS.map (· + sourceShift s) := by
  cases s
  · simp [sourceGetB, sourceShift]
  · simp [sourceGetB, sourceShift]

theorem map_add_add (POS : List Vq) (a b : Vq) :
    (POS.map (· + a)).map (· + b) = POS.map (· + (a + b)) := by
  simp only [List.map_map]
  congr 1
  funext x
  simp [add_assoc]

theorem queryFold_shared_state (pre : List Source) (s : Source) (post : List Source)
    (POS : List Vq) :
    ((queryFold (pre ++ s :: post) POS).2)[pre.length]? =
      some ((sourceGetB s (POS.map (· + totalShift pre))).2) := by
  induction pre generalizing POS with
  | nil =>
      have h0 : POS.map (· + totalShift []) = POS := by
        simp [totalShift]
      simp [queryFold, h0]
  | cons a pre' ih =>
      have hstep : (sourceGetB a POS).1 = POS.map (· + sourceShift a) :=
        sourceGetB_fst a POS
      have hts : totalShift (a :: pre') = sourceShift a + totalShift pre' := by
        simp [totalShift]
      simp only [List.cons_append, queryFold, hstep, List.getElem?_cons_succ,
        List.length_cons, List.append_eq]
      rw [ih, map_add_add, hts]

/-- C10: `DiscreteSourceBox.getB` translates the position array it is handed
in place by `center - position`; inside `getBarray` the same flattened
array is threaded through every per-source `getB` call, so the source at
index `i` is queried at the positions already shifted by the accumulated
in-place translations of all earlier sources (an analytic source
contributes shift `0`, a `DiscreteSourceBox` contributes
`center - position`). -/
theorem getB_inplace_mutation_shared :
    (∀ (b : DiscreteSourceBox) (pos : PosArg),
        (b.getB pos).1 = pos.mapPts (· + (b.center - b.position)))
  ∧ (∀ (s : Source) (POS : List Vq),
        (sourceGetB s POS).1 = POS.map (· + sourceShift s))
  ∧ (∀ (pre : List Source) (s : Source) (post : List Source) (POS : List Vq),
        ((queryFold (pre ++ s :: post) POS).2)[pre.length]? =
          some ((sourceGetB s (POS.map (· + totalShift pre))).2)) := by
  refine ⟨?_, sourceGetB_fst, queryFold_shared_state⟩
  intro b pos
  rfl

theorem dsVals_length (b : DiscreteSourceBox) (pts : List Vq) :
    (dsVals b pts).length = pts.length := by
  simp only [dsVals]
  split <;> simp

/-- C2: failing input for the grid round-trip.  `boxStretch` is built from a
complete rectilinear table whose x-values `{0, 1, 3}` are not evenly
spaced; the code builds its interpolation axes with
`np.linspace(min, max, n_unique) = [0, 3/2, 3]` instead of the unique
sorted values, so `getB` at the exact original grid coordinate `(1, 0, 0)`
returns `(2/3, 0, 0)` instead of the stored row value `(1, 0, 0)`. -/
theorem dsGetB_gridpoint_mismatch :
    (boxStretch.getB (PosArg.single (1, 0, 0))).2 = BRet.single ((2 : ℝ)/3, 0, 0) ∧
    ((2 : ℝ)/3, (0 : ℝ), (0 : ℝ)) ≠ ((1 : ℝ), (0 : ℝ), (0 : ℝ)) := by
  constructor
  · have hang : boxStretch.angle = 0 := by rw [boxStretch_eval]
    have hpt : ((1 : ℚ), (0 : ℚ), (0 : ℚ)) + dsShift boxStretch = ((1 : ℚ), 0, 0) := by
      rw [dsShift_boxStretch]
      norm_num [Prod.ext_iff]
    have hv : dsVals boxStretch [((1 : ℚ), 0, 0)] = [((2 : ℝ)/3, 0, 0)] := by
      simp only [dsVals, hang, List.map_cons, List.map_nil, interpStretch_at_gridpoint]
      norm_num [castV, Prod.ext_iff]
    simp only [DiscreteSourceBox.getB, PosArg.mapPts, PosArg.flat, List.map_cons,
      List.map_nil, hpt, hv, hang]
    norm_num
  · norm_num [Prod.ext_iff]

/-- C4 (amended): the bare-vector collapse of `DiscreteSourceBox.getB`
happens only in the `angle == 0` branch.  `BRet.shape` is `none` for a bare
3-vector and `some n` for an `(n, 3)` batch: a single query point yields a
bare vector iff `angle == 0`, a length-1 batch when `angle ≠ 0`, and a
batch of `n > 1` points always yields a batch of `n` vectors. -/
theorem getB_shape_by_angle (b : DiscreteSourceBox) (v : Vq) (l : List Vq)
    (hl : 1 < l.length) :
    (b.angle = 0 → (b.getB (PosArg.single v)).2.shape = none)
  ∧ (b.angle ≠ 0 → (b.getB (PosArg.single v)).2.shape = some 1)
  ∧ (b.getB (PosArg.batch l)).2.shape = some l.length := by
  refine ⟨?_, ?_, ?_⟩
  · intro h
    simp [DiscreteSourceBox.getB, PosArg.mapPts, PosArg.flat, h, BRet.shape]
  · intro h
    simp [DiscreteSourceBox.getB, PosArg.mapPts, PosArg.flat, h, BRet.shape, dsVals_length]
  · have hne : ¬ l.length = 1 := by omega
    by_cases h : b.angle = 0
    · simp [DiscreteSourceBox.getB, PosArg.mapPts, PosArg.flat, h, BRet.shape,
        dsVals_length, hne]
    · simp [DiscreteSourceBox.getB, PosArg.mapPts, PosArg.flat, h, BRet.shape,
        dsVals_length]

theorem getB_shape_by_angle_witness :
    1 < ([((0 : ℚ), 0, 0), ((1 : ℚ), 1, 1)] : List Vq).length ∧
    ((boxRot.angle = 0 → (boxRot.getB (PosArg.single (0, 0, 0))).2.shape = none)
    ∧ (boxRot.angle ≠ 0 → (boxRot.getB (PosArg.single (0, 0, 0))).2.shape = some 1)
    ∧ (boxRot.getB (PosArg.batch [((0 : ℚ), 0, 0), ((1 : ℚ), 1, 1)])).2.shape =
        some ([((0 : ℚ), 0, 0), ((1 : ℚ), 1, 1)] : List Vq).length) :=
  ⟨by norm_num, getB_shape_by_angle boxRot (0, 0, 0) _ (by norm_num)⟩

/-- C4 counterexample: `boxRot` has `angle = 90`, and its `getB` on the
single query point `(1/2, 1/2, 1/2)` returns a *length-1 batch*
(`shape = some 1`), not a bare 3-vector (`shape = none`), contradicting
"returns a single 3-vector regardless of its angle/axis placement". -/
theorem getB_rotated_single_is_batch :
    (boxRot.getB (PosArg.single (1/2, 1/2, 1/2))).2.shape = some 1 := by
  have hang : boxRot.angle = 90 := by rw [boxRot_eval]
  have h90 : boxRot.angle ≠ 0 := by rw [hang]; norm_num
  simp [DiscreteSourceBox.getB, PosArg.mapPts, PosArg.flat, h90, BRet.shape, dsVals_length]

/-- C9: `getBarray` with zero sources warns ("no magnetic source …") and
returns the placeholder single zero vector `[[0, 0, 0]]`, whatever the
shapes of the supplied `POS`/`ANG`/`AXIS` arguments. -/
theorem getBarray_empty_sources (POS : List Vq) (ANG : AngArg) (AXIS : List Vq) :
    getBarray [] POS ANG AXIS =
      (["no magnetic source returning [[0,0,0]]"], [((0 : ℝ), 0, 0)]) := rfl

theorem isIn_append_self_sensor (L : List SItem) (i : ℕ) :
    isIn (SItem.sensor i) (L ++ [SItem.sensor i]) = true := by
  simp [isIn, eqItem]

theorem addOne_sensor_idem (L : List SItem) (i : ℕ) :
    addOne (addOne L (SItem.sensor i)) (SItem.sensor i) = addOne L (SItem.sensor i) := by
  simp only [addOne]
  by_cases h : isIn (SItem.sensor i) L = true
  · simp [h]
  · simp [h, isIn_append_self_sensor]

/-- C6: adding the same point sensor twice — in one `addSensor(s, s)` call
or in two consecutive calls — leaves the membership list identical to
adding it once (in particular the child-list size is unchanged), and
handing `addSensor` a nested collection absorbs that collection's children
recursively instead of nesting the collection object itself. -/
theorem addSensor_idempotent_flatten (L : List SItem) (i n : ℕ) (cs : List SItem) :
    addSensor L [SItem.sensor i, SItem.sensor i] = addSensor L [SItem.sensor i]
  ∧ addSensor (addSensor L [SItem.sensor i]) [SItem.sensor i] = addSensor L [SItem.sensor i]
  ∧ addOne L (SItem.coll n cs) = addSensor L cs := by
  refine ⟨?_, ?_, ?_⟩
  · simp only [addSensor]
    exact addOne_sensor_idem L i
  · simp only [addSensor]
    exact addOne_sensor_idem L i
  · simp only [addOne]

/-- C3 counterexample: `addSensor` handed the invalid item `object 7`
(neither a point sensor, a surface sensor, nor a collection) returns
normally (`Except.ok`, where a raise would be `Except.error`) and leaves
the membership unchanged — it silently skips the item instead of raising. -/
theorem addSensor_invalid_silently_skipped :
    addSensorE [] [SItem.other 7] = Except.ok [] := by
  simp [addSensorE, addSensor, addOne]

/-- C3 (amended): `addSensor` never raises — an item that is not a point
sensor, surface sensor or collection is silently skipped, leaving the
membership unchanged; only the `+` operator (`__add__`) rejects its operand
immediately, raising an assertion whose message names the offending value,
and it does so for *any* operand that is not a point `Sensor` or a
`SensorCollection` — including a `SurfaceSensor`. -/
theorem addSensor_skips_and_addOperator_raises (L : List SItem) (n m f : ℕ) :
    addSensorE L [SItem.other n] = Except.ok L
  ∧ addOperator L (SItem.other n) f =
      Except.error (itemStr (SItem.other n) ++ " item must be a SensorCollection or a sensor")
  ∧ addOperator L (SItem.surface m) f =
      Except.error (itemStr (SItem.surface m) ++ " item must be a SensorCollection or a sensor") := by
  refine ⟨?_, rfl, rfl⟩
  simp [addSensorE, addSensor, addOne]

theorem linspaceR_degenerate (n : ℕ) :
    linspaceR (-(0 : ℝ) / 2) ((0 : ℝ) / 2) n = List.replicate n 0 := by
  simp only [linspaceR]
  have h : (fun i : ℕ => -(0 : ℝ) / 2 + (i : ℝ) * ((0 : ℝ) / 2 - -(0 : ℝ) / 2) / ((n : ℝ) - 1))
      = fun _ : ℕ => (0 : ℝ) := by
    funext i; norm_num
  rw [h, List.map_const']
  simp

theorem replicate_flatMap_replicate {α β : Type} (m n : ℕ) (x : β) (g : β → α) :
    (List.replicate m x).flatMap (fun y => List.replicate n (g y)) =
      List.replicate (m * n) (g x) := by
  induction m with
  | zero => simp
  | succ k ih =>
      have harith : (k + 1) * n = n + k * n := by ring
      simp only [List.replicate_succ, List.flatMap_cons, ih, harith, List.replicate_add]

/-- C7: a `SurfaceSensor` whose grid shape has either dimension equal to 1
(e.g. `(1, 5)`) has its stored dimension collapsed to `(0, 0)` in *both*
axes, and its whole sample grid degenerates to `n1*n2` copies of the single
point at the sensor's own position (its centroid) — even when the other
grid dimension exceeds 1. -/
theorem surfaceSensor_degenerate (pos : V3) (ang : ℝ) (ax : V3) (d : ℝ × ℝ)
    (n1 n2 : ℕ) (hdeg : n1 = 1 ∨ n2 = 1) :
    (mkSurfaceSensor (Sum.inr (n1, n2)) (Sum.inr d) pos ang ax).dimension = (0, 0)
  ∧ (mkSurfaceSensor (Sum.inr (n1, n2)) (Sum.inr d) pos ang ax).samplePositions =
      List.replicate (n1 * n2) pos := by
  have hanch : angleAxisRotationAnch ((0 : ℝ), (0 : ℝ), (0 : ℝ)) ang ax
      ((0 : ℝ), (0 : ℝ), (0 : ℝ)) = ((0 : ℝ), (0 : ℝ), (0 : ℝ)) := by
    have h0 : (((0 : ℝ), (0 : ℝ), (0 : ℝ)) : V3) = 0 := rfl
    rw [h0]
    simp only [angleAxisRotationAnch, sub_zero, angleAxisRotation_zero_vec, add_zero]
  have hzero_add : (((0 : ℝ), (0 : ℝ), (0 : ℝ)) : V3) + pos = pos := by
    have h0 : (((0 : ℝ), (0 : ℝ), (0 : ℝ)) : V3) = 0 := rfl
    rw [h0, zero_add]
  simp only [mkSurfaceSensor, SurfaceSensor.update, Option.getD_none, Option.getD_some,
    if_pos hdeg]
  refine ⟨trivial, ?_⟩
  simp only [linspaceR_degenerate, List.map_replicate, replicate_flatMap_replicate,
    hanch, hzero_add]

theorem surfaceSensor_degenerate_witness :
    ((1 : ℕ) = 1 ∨ (5 : ℕ) = 1) ∧
    ((mkSurfaceSensor (Sum.inr (1, 5)) (Sum.inr (0.2, 0.2)) (1, 2, 3) 30 (0, 0, 1)).dimension
        = (0, 0)
    ∧ (mkSurfaceSensor (Sum.inr (1, 5)) (Sum.inr (0.2, 0.2)) (1, 2, 3) 30
        (0, 0, 1)).samplePositions = List.replicate (1 * 5) ((1 : ℝ), 2, 3)) :=
  ⟨Or.inl rfl, surfaceSensor_degenerate (1, 2, 3) 30 (0, 0, 1) (0.2, 0.2) 1 5 (Or.inl rfl)⟩

theorem circAngles_formula (N : ℕ) (start : ℝ) :
    circAngles N start =
      (List.range N).map fun k : ℕ => deg2rad (start + (k : ℝ) * 360 / N) := by
  simp only [circAngles, linspaceR, List.map_map, List.range_succ, List.map_append,
    List.map_cons, List.map_nil, List.dropLast_concat]
  apply List.map_congr_left
  intro k hk
  simp only [Function.comp_apply, deg2rad]
  congr 1
  push_cast
  ring

theorem deg2rad_zero : deg2rad 0 = 0 := by
  simp [deg2rad]

theorem deg2rad_90 : deg2rad 90 = π / 2 := by
  unfold deg2rad; ring

theorem deg2rad_180 : deg2rad 180 = π := by
  unfold deg2rad; ring

theorem deg2rad_270 : deg2rad 270 = 3 * π / 2 := by
  unfold deg2rad; ring

theorem cos_three_pi_div_two : Real.cos (3 * π / 2) = 0 := by
  have h : (3 : ℝ) * π / 2 = π + π / 2 := by ring
  rw [h, Real.cos_add]
  simp

theorem sin_three_pi_div_two : Real.sin (3 * π / 2) = -1 := by
  have h : (3 : ℝ) * π / 2 = π + π / 2 := by ring
  rw [h, Real.sin_add]
  simp

theorem circAngles_four :
    circAngles 4 0 = [0, π / 2, π, 3 * π / 2] := by
  rw [circAngles_formula]
  have hr : List.range 4 = [0, 1, 2, 3] := rfl
  rw [hr]
  simp only [List.map_cons, List.map_nil]
  rw [show (0 : ℝ) + (0 : ℕ) * 360 / (4 : ℕ) = 0 by push_cast; ring,
    show (0 : ℝ) + (1 : ℕ) * 360 / (4 : ℕ) = 90 by push_cast; ring,
    show (0 : ℝ) + (2 : ℕ) * 360 / (4 : ℕ) = 180 by push_cast; ring,
    show (0 : ℝ) + (3 : ℕ) * 360 / (4 : ℕ) = 270 by push_cast; ring,
    deg2rad_zero, deg2rad_90, deg2rad_180, deg2rad_270]

theorem update_position (s : SurfaceSensor) (p : V3) (a : ℝ) (ax : V3)
    (dd : Option (ℝ ⊕ (ℝ × ℝ))) (nn : Option (ℕ ⊕ (ℕ × ℕ))) :
    (s.update (some p) (some a) (some ax) dd nn).position = p := rfl

theorem update_angle (s : SurfaceSensor) (p : V3) (a : ℝ) (ax : V3)
    (dd : Option (ℝ ⊕ (ℝ × ℝ))) (nn : Option (ℕ ⊕ (ℕ × ℕ))) :
    (s.update (some p) (some a) (some ax) dd nn).angle = a := rfl

theorem update_axis (s : SurfaceSensor) (p : V3) (a : ℝ) (ax : V3)
    (dd : Option (ℝ ⊕ (ℝ × ℝ))) (nn : Option (ℕ ⊕ (ℕ × ℕ))) :
    (s.update (some p) (some a) (some ax) dd nn).axis = ax := rfl

/-- C8: a `CircularSensorArray` with `num_of_sensors=4`, `Rs=2`,
`start_angle=0` places its four surface-sensor centers at
`(2,0,0), (0,2,0), (-2,0,0), (0,-2,0)` — the angles 0°, 90°, 180°, 270° on
the radius-2 circle around the array center — each child with local angle 0
and axis `(0,0,1)`; and in general `initialize` computes `N` equally spaced
angles `start + k*360/N` (k < N) over `[start, start+360)`, excluding the
wrap point. -/
theorem circularArray_placement (d : ℝ × ℝ) (ne : ℕ × ℕ) :
    ((circInitialize 4 2 0 d ne).map SurfaceSensor.position =
        [(2, 0, 0), (0, 2, 0), (-2, 0, 0), (0, -2, 0)]
    ∧ ∀ st ∈ circInitialize 4 2 0 d ne, st.angle = 0 ∧ st.axis = (0, 0, 1))
  ∧ ∀ (N : ℕ) (start : ℝ), circAngles N start =
      (List.range N).map fun k : ℕ => deg2rad (start + (k : ℝ) * 360 / N) := by
  refine ⟨⟨?_, ?_⟩, fun N start => circAngles_formula N start⟩
  · have hr : List.range 4 = [0, 1, 2, 3] := rfl
    simp only [circInitialize, circChildren0, circAngles_four, hr, List.map_cons,
      List.map_nil, List.zip_cons_cons, List.zip_nil_right, update_position]
    norm_num [update_position, Real.cos_pi_div_two, Real.sin_pi_div_two, Real.cos_pi,
      Real.sin_pi, cos_three_pi_div_two, sin_three_pi_div_two, Prod.ext_iff]
  · intro st hst
    simp only [circInitialize] at hst
    obtain ⟨pair, hpair, rfl⟩ := List.mem_map.mp hst
    exact ⟨rfl, rfl⟩

/-- C5 (amended): `rotate(θ, axis)` then `rotate(-θ, axis)` about the same
anchor restores the collection and every descendant exactly, provided the
rotation axis is nonzero and every stored orientation is nondegenerate: each
angle strictly between 0 and 360 degrees and each stored axis a unit vector.
(The counterexample shows the axis of an angle-0 descendant is *not*
restored: the reconstruction resets it to `(0, 0, 1)`.) -/
theorem sensorCollection_rotate_roundtrip (c : SensorCollection) (θ : ℝ) (ax anc : V3)
    (hax : ax ≠ 0)
    (hrcs : 0 < c.rcs.angle ∧ c.rcs.angle < 360 ∧ norm3 c.rcs.axis = 1)
    (hs : ∀ s ∈ c.sensors, 0 < s.angle ∧ s.angle < 360 ∧ norm3 s.axis = 1) :
    (c.rotate θ ax (some anc)).rotate (-θ) ax (some anc) = c := by
  obtain ⟨crcs, csens⟩ := c
  simp only at hrcs hs
  simp only [SensorCollection.rotate, Option.getD_some, SensorCollection.mk.injEq]
  constructor
  · exact RCS_rotate_roundtrip crcs θ anc hax hrcs.1 hrcs.2.1 hrcs.2.2
  · rw [List.map_map]
    calc List.map ((fun s => RCS.rotate s (-θ) ax anc) ∘ fun s => RCS.rotate s θ ax anc) csens
        = List.map id csens := by
          apply List.map_congr_left
          intro s hsm
          exact RCS_rotate_roundtrip s θ anc hax (hs s hsm).1 (hs s hsm).2.1 (hs s hsm).2.2
      _ = csens := List.map_id csens

theorem sensorCollection_rotate_roundtrip_witness :
    ((SensorCollection.mk ⟨(0, 0, 0), 90, (0, 0, 1)⟩
        [⟨(1, 2, 3), 90, (0, 0, 1)⟩]).rotate 45 (0, 0, 1) (some (5, 0, 0))).rotate
      (-45) (0, 0, 1) (some (5, 0, 0)) =
    SensorCollection.mk ⟨(0, 0, 0), 90, (0, 0, 1)⟩ [⟨(1, 2, 3), 90, (0, 0, 1)⟩] := by
  have hunit : norm3 ((0 : ℝ), 0, 1) = 1 := by
    simp only [norm3]
    norm_num
  refine sensorCollection_rotate_roundtrip _ 45 (0, 0, 1) (5, 0, 0) ?_ ?_ ?_
  · intro h
    have := congrArg (fun v : V3 => v.2.2) h
    norm_num at this
  · exact ⟨by norm_num, by norm_num, hunit⟩
  · intro s hsm
    simp only [List.mem_singleton] at hsm
    subst hsm
    exact ⟨by norm_num, by norm_num, hunit⟩

theorem getRotQuat_zero_xaxis : getRotQuat 0 ((1 : ℝ), 0, 0) = qone := by
  apply quatExt <;> simp [getRotQuat, qone]

theorem normalize3_zaxis : normalize3 ((0 : ℝ), 0, 1) = ((0 : ℝ), 0, 1) := by
  apply normalize3_of_unit
  simp only [norm3]
  norm_num

theorem getRotQuat_180_z : getRotQuat 180 ((0 : ℝ), 0, 1) = ⟨0, 0, 0, 1⟩ := by
  have hhalf : (180 : ℝ) * π / 360 = π / 2 := by ring
  apply quatExt <;>
    simp [getRotQuat, hhalf, normalize3_zaxis, Real.cos_pi_div_two, Real.sin_pi_div_two]

theorem getRotQuat_neg180_z : getRotQuat (-180) ((0 : ℝ), 0, 1) = ⟨0, 0, 0, -1⟩ := by
  rw [getRotQuat_neg, getRotQuat_180_z]
  apply quatExt <;> simp [qconj]

theorem reconAngle_kquat : reconAngle (⟨0, 0, 0, 1⟩ : Quat) = 180 := by
  simp only [reconAngle, Real.arccos_zero]
  field_simp
  ring

theorem reconAxis_kquat : reconAxis (⟨0, 0, 0, 1⟩ : Quat) = ((0 : ℝ), 0, 1) := by
  have h : reconAngle (⟨0, 0, 0, 1⟩ : Quat) ≠ 0 := by
    rw [reconAngle_kquat]; norm_num
  simp only [reconAxis, if_neg h]
  exact normalize3_zaxis

theorem reconAngle_one_quat : reconAngle (⟨1, 0, 0, 0⟩ : Quat) = 0 := by
  simp [reconAngle, Real.arccos_one]

theorem reconAxis_one_quat : reconAxis (⟨1, 0, 0, 0⟩ : Quat) = ((0 : ℝ), 0, 1) := by
  simp [reconAxis, reconAngle_one_quat]

theorem roundtrip_child_axis :
    (RCS.rotate (RCS.rotate ⟨((1 : ℝ), 0, 0), 0, ((1 : ℝ), 0, 0)⟩ 180 ((0 : ℝ), 0, 1)
        ((0 : ℝ), 0, 0)) (-180) ((0 : ℝ), 0, 1) ((0 : ℝ), 0, 0)).axis = ((0 : ℝ), 0, 1) := by
  simp only [RCS.rotate]
  rw [getRotQuat_zero_xaxis, qmul_qone, getRotQuat_180_z, reconAngle_kquat, reconAxis_kquat,
    getRotQuat_180_z, getRotQuat_neg180_z]
  have hr2 : qmul (⟨0, 0, 0, -1⟩ : Quat) (⟨0, 0, 0, 1⟩ : Quat) = ⟨1, 0, 0, 0⟩ := by
    apply quatExt <;> simp [qmul]
  rw [hr2, reconAxis_one_quat]

/-- C5 counterexample: a collection holding one point sensor with stored
orientation `angle = 0`, `axis = (1, 0, 0)`.  After `rotate(180, (0,0,1))`
then `rotate(-180, (0,0,1))` about anchor `(0,0,0)`, the descendant's axis
has been reset to `(0, 0, 1)` by the axis-angle reconstruction, so the
round trip does not restore the collection: position and angle come back,
the axis does not. -/
theorem sensorCollection_roundtrip_axis_cex :
    ((SensorCollection.mk ⟨(0, 0, 0), 0, (0, 0, 1)⟩
        [⟨(1, 0, 0), 0, (1, 0, 0)⟩]).rotate 180 (0, 0, 1) (some (0, 0, 0))).rotate
      (-180) (0, 0, 1) (some (0, 0, 0)) ≠
    SensorCollection.mk ⟨(0, 0, 0), 0, (0, 0, 1)⟩ [⟨(1, 0, 0), 0, (1, 0, 0)⟩] := by
  have haxes : (((SensorCollection.mk ⟨((0 : ℝ), 0, 0), 0, ((0 : ℝ), 0, 1)⟩
      [⟨((1 : ℝ), 0, 0), 0, ((1 : ℝ), 0, 0)⟩]).rotate 180 ((0 : ℝ), 0, 1)
        (some ((0 : ℝ), 0, 0))).rotate (-180) ((0 : ℝ), 0, 1)
        (some ((0 : ℝ), 0, 0))).sensors.map RCS.axis = [((0 : ℝ), 0, 1)] := by
    simp only [SensorCollection.rotate, Option.getD_some, List.map_cons, List.map_nil]
    rw [roundtrip_child_axis]
  intro heq
  rw [heq] at haxes
  simp only [List.map_cons, List.map_nil, List.cons.injEq] at haxes
  have := congrArg (fun v : V3 => v.1) haxes.1
  norm_num at this
